import Mathlib

/-!
# Verification of the linear-regression-with-gluon training script

Shallow embedding of `src/P02-C02-linear-regression-gluon.ipynb`, a linear
script that synthesizes a 10000-example 2-feature dataset, builds a
one-layer dense model, and trains it for two epochs with SGD while
maintaining an exponential moving average of the loss.

Real numbers of the script are embedded as `ℚ` so that all definitions are
executable and concrete instances can be settled by evaluation.  Components
provided by the external mxnet/gluon library (`L2Loss`, the `sgd` trainer,
`NDArrayIter`, the deferred-initialization behaviour of `gluon.nn.Dense`)
are not part of the repository source; they are modelled from the spec's
contracts, each marked `Modelled from the spec:` in its doc comment.
Random draws (`nd.random_normal`) are modelled as explicit inputs.
-/

namespace LinRegGluon

/-! ## Dataset generation (cell-5 of the notebook)

Source:
`X = nd.random_normal(shape=(10000,2))`
`y = 2* X[:,0] - 3.4 * X[:,1] + 4.2 + .01 * nd.random_normal(shape=(10000,))`
The two random draws are inputs `X` and `eps`; `eps i` is the i-th draw of
the second (unit-normal) sample, scaled by `.01` in the label formula. -/

/-- Number of examples in the synthetic dataset: `shape=(10000,2)`. -/
abbrev numExamples : Nat := 10000

/-- Feature dimension of the synthetic dataset: `shape=(10000,2)`. -/
abbrev numInputs : Nat := 2

/-- The label formula of cell-5 applied to one example:
`2*x₀ - 3.4*x₁ + 4.2 + .01*ε` where `ε` is that example's draw from the
second `nd.random_normal(shape=(10000,))` sample. -/
def genLabel (x : Fin numInputs → ℚ) (ε : ℚ) : ℚ :=
  2 * x 0 - 3.4 * x 1 + 4.2 + 0.01 * ε

/-- The full label vector `y` of cell-5, as a function of the two random
draws `X` (features) and `eps` (unit-normal noise draws). -/
def genLabels (X : Fin numExamples → Fin numInputs → ℚ)
    (eps : Fin numExamples → ℚ) : Fin numExamples → ℚ :=
  fun i => genLabel (X i) (eps i)

/-! ## Loss function (cells 16 and 20)

Source: `loss = gluon.loss.L2Loss()`, used as `mse = loss(output, label)`. -/

/-- Modelled from the spec: the per-example squared error computed by the
Loss Function (`gluon.loss.L2Loss`, external to the repository): "given
predicted and true labels of matching shape, returns elementwise squared
error". -/
def sqErr (pred label : ℚ) : ℚ := (pred - label) ^ 2

/-- Modelled from the spec: the Loss Function applied to a batch of
predictions and a batch of true labels of matching shape, elementwise. -/
def l2Loss (pred label : List ℚ) : List ℚ := List.zipWith sqErr pred label

/-! ## Optimizer (cells 18 and 20)

Source: `trainer = gluon.Trainer(net.collect_params(), 'sgd',
{'learning_rate': 0.1})`, used as `trainer.step(data.shape[0])`. -/

/-- Modelled from the spec: the Optimizer's configuration.  "Stateless
beyond the learning-rate configuration", so the structure holds only the
learning rate. -/
structure Trainer where
  learning_rate : ℚ

/-- The trainer constructed in cell-18: `{'learning_rate': 0.1}`. -/
def theTrainer : Trainer := ⟨0.1⟩

/-- Modelled from the spec: one SGD update of a single parameter:
"updates each parameter as param -= learningRate · gradient / batchSize". -/
def sgdStep (param grad lr batchSize : ℚ) : ℚ :=
  param - lr * grad / batchSize

/-- Modelled from the spec: `trainer.step(batchSize)` updating every
parameter from its externally computed gradient. -/
def trainerStep (t : Trainer) (params grads : List ℚ) (batchSize : ℚ) :
    List ℚ :=
  List.zipWith (fun p g => sgdStep p g t.learning_rate batchSize) params grads

/-! ## Model (cells 9, 11, 14)

Source: `net = gluon.nn.Sequential()`; `net.add(gluon.nn.Dense(1, in_units=2))`;
`net.collect_params().initialize(mx.init.Normal(sigma=1.), ctx=ctx)`. -/

/-- The parameters of the single `Dense(1, in_units=2)` layer: a weight
vector of 2 elements and a bias scalar. -/
structure DenseParams where
  weight : Fin 2 → ℚ
  bias : ℚ

/-- Modelled from the spec: the model's parameter store.  `none` until
`collect_params().initialize` has run ("Parameters must be initialized
before first invocation"). -/
structure Net where
  params : Option DenseParams

/-- The freshly constructed network of cells 9 and 11: no parameter values
yet. -/
def netNew : Net := ⟨none⟩

/-- Modelled from the spec: `net.collect_params().initialize(...)` installs
concrete parameter values (sampled i.i.d. from Normal(0,1) by
`mx.init.Normal(sigma=1.)`; the draw is an explicit input here). -/
def netInit (p : DenseParams) : Net := ⟨some p⟩

/-- Modelled from the spec: invoking the Model on a batch of feature
vectors.  Before initialization this "must fail with an
uninitialized-parameter error"; afterwards it returns
`prediction = features · weight + bias` for each row. -/
def netForward (n : Net) (batch : List (Fin 2 → ℚ)) :
    Except String (List ℚ) :=
  match n.params with
  | none => .error "uninitialized-parameter"
  | some p =>
      .ok (batch.map fun x => p.weight 0 * x 0 + p.weight 1 * x 1 + p.bias)

/-! ## Batch iterator (cell-7)

Source: `batch_size = 4`;
`train_data = mx.io.NDArrayIter(X, y, batch_size, shuffle=True)`.
`mx.io.NDArrayIter` is external to the repository; modelled from the spec:
"shuffles and slices the dataset into fixed-size mini-batches, supporting
reset/restart between epochs" and "produces a lazy, finite, restartable
sequence of (features, labels) pairs covering the full dataset once per
pass, in shuffled order when configured".  A pass is modelled as an
arbitrary permutation `shuffled` of the dataset's rows, sliced into
consecutive batches of `batch_size` rows. -/

/-- The batch size set in cell-7. -/
def batch_size : Nat := 4

/-- Slice a (shuffled) list of rows into consecutive batches of `bs` rows
each (the last batch shorter when `bs` does not divide the length).
For `bs = 0` every batch is a single row. -/
def toBatches (bs : Nat) : List α → List (List α)
  | [] => []
  | x :: xs =>
      (x :: List.take (bs - 1) xs) :: toBatches bs (List.drop (bs - 1) xs)
termination_by l => l.length
decreasing_by simp [List.length_drop]; omega

/-! ## Moving loss and the training loop (cell-20)

Source:
```
epochs = 2
for e in range(epochs):
    moving_loss = 0.
    train_data.reset()
    for i, batch in enumerate(train_data):
        ... forward, loss, backward, trainer.step ...
        moving_loss = .99 * moving_loss + .01 * nd.sum(mse).asscalar()
```
-/

/-- Number of epochs set in cell-20: `epochs = 2`. -/
def epochs : Nat := 2

/-- The per-batch moving-loss update of cell-20:
`moving_loss = .99 * moving_loss + .01 * nd.sum(mse).asscalar()`. -/
def movingLossStep (movingLoss batchLossSum : ℚ) : ℚ :=
  0.99 * movingLoss + 0.01 * batchLossSum

/-- The successive values `moving_loss` takes inside one epoch of cell-20,
one entry per batch, starting from the value `m` it holds when the epoch's
inner loop begins. -/
def movingLossTraceFrom (m : ℚ) : List ℚ → List ℚ
  | [] => []
  | s :: rest =>
      movingLossStep m s :: movingLossTraceFrom (movingLossStep m s) rest

/-- The moving-loss values of the whole run of cell-20, one inner list per
epoch, given each epoch's list of batch loss sums
(`nd.sum(mse).asscalar()` per batch).  Faithful to the source: each epoch
body begins with `moving_loss = 0.`, so each epoch's trace starts from 0. -/
def trainMovingLoss (epochBatchLossSums : List (List ℚ)) : List (List ℚ) :=
  epochBatchLossSums.map (movingLossTraceFrom 0)

/-- A full-epoch pass of the training loop of cell-20, at the data level:
after `train_data.reset()` the inner `for i, batch in enumerate(train_data)`
consumes one full shuffled pass, sliced into batches of `batch_size`.
`shuffled e` is the pass order the iterator uses in epoch `e`. -/
def epochBatches (shuffled : Nat → List α) (e : Nat) : List (List α) :=
  toBatches batch_size (shuffled e)

/-- The batches processed by the whole training run of cell-20
(`for e in range(epochs)` with a `train_data.reset()` starting each epoch):
one inner list of batches per epoch, in order. -/
def trainingRunBatches (shuffled : Nat → List α) : List (List (List α)) :=
  (List.range epochs).map (epochBatches shuffled)

/-! ## Helper lemmas about batch slicing -/

/-- Concatenating the batches of a pass recovers the pass. -/
theorem toBatches_join {α : Type} (bs : Nat) (l : List α) :
    (toBatches bs l).flatten = l := by
  induction l using toBatches.induct bs with
  | case1 => simp [toBatches]
  | case2 x xs ih =>
      simp only [toBatches, List.flatten, ih, List.cons_append]
      rw [List.take_append_drop]

/-- In the divisibility case, the remainder after the first batch is still
divisible and the tail is long enough for a full first batch. -/
theorem toBatches_div_step {α : Type} (bs : Nat) (hbs : 0 < bs)
    (x : α) (xs : List α) (hdvd : bs ∣ (x :: xs).length) :
    bs - 1 ≤ xs.length ∧ bs ∣ (List.drop (bs - 1) xs).length := by
  obtain ⟨k, hk⟩ := hdvd
  simp only [List.length_cons] at hk
  rcases k with _ | k
  · omega
  · have h1 : bs * 1 ≤ bs * (k + 1) := Nat.mul_le_mul_left bs (by omega)
    have h2 : bs * (k + 1) = bs * k + bs := by ring
    refine ⟨by omega, ⟨k, ?_⟩⟩
    simp only [List.length_drop]
    omega

/-- When the batch size is positive and divides the pass length, every
batch has exactly `bs` rows. -/
theorem toBatches_mem_length {α : Type} (bs : Nat) (hbs : 0 < bs) :
    ∀ (l : List α), bs ∣ l.length → ∀ c ∈ toBatches bs l, c.length = bs := by
  intro l
  induction l using toBatches.induct bs with
  | case1 => simp [toBatches]
  | case2 x xs ih =>
      intro hdvd c hc
      obtain ⟨hxs, hdvd'⟩ := toBatches_div_step bs hbs x xs hdvd
      simp only [toBatches, List.mem_cons] at hc
      rcases hc with rfl | hc
      · simp only [List.length_cons, List.length_take]
        omega
      · exact ih hdvd' c hc

/-- When the batch size is positive and divides the pass length, the number
of batches times the batch size is the pass length. -/
theorem toBatches_count_mul {α : Type} (bs : Nat) (hbs : 0 < bs) :
    ∀ (l : List α), bs ∣ l.length →
      (toBatches bs l).length * bs = l.length := by
  intro l
  induction l using toBatches.induct bs with
  | case1 => simp [toBatches]
  | case2 x xs ih =>
      intro hdvd
      obtain ⟨hxs, hdvd'⟩ := toBatches_div_step bs hbs x xs hdvd
      have := ih hdvd'
      simp only [toBatches, List.length_cons, Nat.succ_mul]
      simp only [List.length_drop] at this
      omega

/-! ## Claim theorems -/

/-- C5: over one full pass of the Batch Iterator (reset to exhaustion) on
the 10000-example dataset with batch size 4, the multiset of all feature
rows yielded across the pass's batches equals the full dataset — each row
as often as it occurs in the dataset, no duplicates and no omissions —
for every shuffle order (any permutation `shuffled` of the dataset). -/
theorem batch_iterator_full_pass_multiset {α : Type}
    (dataset shuffled : List α)
    (hsize : dataset.length = numExamples)
    (hperm : shuffled.Perm dataset) :
    Multiset.ofList ((toBatches batch_size shuffled).flatten) =
      Multiset.ofList dataset := by
  rw [toBatches_join]
  exact Quot.sound hperm

/-- Witness for C5 at a concrete 10000-row dataset with the identity
shuffle. -/
theorem batch_iterator_full_pass_multiset_witness :
    (List.range 10000).length = numExamples ∧
    (List.range 10000).Perm (List.range 10000) ∧
    Multiset.ofList ((toBatches batch_size (List.range 10000)).flatten) =
      Multiset.ofList (List.range 10000) :=
  ⟨by simp, List.Perm.refl _,
    batch_iterator_full_pass_multiset (List.range 10000) (List.range 10000)
      (by simp) (List.Perm.refl _)⟩

/-- C10: since the dataset size 10000 is an exact multiple of the batch
size 4, every batch of a pass contains exactly 4 examples, so the
batch-size argument `data.shape[0]` of `trainer.step` equals 4 on each of
the 2500 updates per epoch, and no final partial batch (padding) occurs. -/
theorem all_batches_have_size_four {α : Type} (l : List α)
    (hsize : l.length = numExamples) :
    batch_size = 4 ∧
    (∀ c ∈ toBatches batch_size l, c.length = 4) ∧
    (toBatches batch_size l).length = 2500 := by
  have hdvd : batch_size ∣ l.length := by
    rw [hsize]; exact ⟨2500, rfl⟩
  have hpos : 0 < batch_size := by decide
  refine ⟨rfl, toBatches_mem_length batch_size hpos l hdvd, ?_⟩
  have hcnt := toBatches_count_mul batch_size hpos l hdvd
  rw [hsize] at hcnt
  have h4 : batch_size = 4 := rfl
  rw [h4] at hcnt ⊢
  have hcnt2 : (toBatches 4 l).length * 4 = 10000 := hcnt
  omega

/-- Witness for C10 at a concrete 10000-row dataset. -/
theorem all_batches_have_size_four_witness :
    (List.range 10000).length = numExamples ∧
    (batch_size = 4 ∧
      (∀ c ∈ toBatches batch_size (List.range 10000), c.length = 4) ∧
      (toBatches batch_size (List.range 10000)).length = 2500) :=
  ⟨by simp, all_batches_have_size_four (List.range 10000) (by simp)⟩

/-- C8: the Training Loop runs exactly 2 epochs — its epoch list is
precisely `[epoch 0, epoch 1]` — each epoch resets the Batch Iterator and
then processes a full fresh pass over the dataset (the joined batches of
epoch `e` are a permutation of the dataset), and the run is this total
finite computation with no other exit path. -/
theorem training_loop_two_epochs {α : Type}
    (dataset : List α) (shuffled : Nat → List α)
    (hperm : ∀ e, e < epochs → (shuffled e).Perm dataset) :
    epochs = 2 ∧
    trainingRunBatches shuffled =
      [epochBatches shuffled 0, epochBatches shuffled 1] ∧
    ∀ e, e < epochs → ((epochBatches shuffled e).flatten).Perm dataset := by
  refine ⟨rfl, rfl, ?_⟩
  intro e he
  rw [epochBatches, toBatches_join]
  exact hperm e he

/-- Witness for C8 at a concrete 4-row dataset with identity shuffles. -/
theorem training_loop_two_epochs_witness :
    (∀ e, e < epochs →
      ((fun _ => [0, 1, 2, 3]) e : List ℕ).Perm [0, 1, 2, 3]) ∧
    (epochs = 2 ∧
      trainingRunBatches (fun _ => ([0, 1, 2, 3] : List ℕ)) =
        [epochBatches (fun _ => [0, 1, 2, 3]) 0,
          epochBatches (fun _ => [0, 1, 2, 3]) 1] ∧
      ∀ e, e < epochs →
        ((epochBatches (fun _ => ([0, 1, 2, 3] : List ℕ)) e).flatten).Perm
          [0, 1, 2, 3]) :=
  ⟨fun _ _ => List.Perm.refl _,
    training_loop_two_epochs [0, 1, 2, 3] (fun _ => [0, 1, 2, 3])
      (fun _ _ => List.Perm.refl _)⟩

/-- C1 as stated is false on the code: cell-20 executes `moving_loss = 0.`
inside the epoch loop, so the Moving Loss does NOT carry over from the last
batch of one epoch into the first batch of the next.  Concretely, with one
batch per epoch and batch loss sums 100 then 0, epoch 0 ends with moving
loss 1; if that value carried over, epoch 1's first batch would yield
`movingLossStep 1 0 = 0.99`, but the code yields 0. -/
theorem movingLoss_carryover_counterexample :
    trainMovingLoss [[100], [0]] = [[1], [0]] ∧
    movingLossStep 1 0 = 0.99 ∧
    trainMovingLoss [[100], [0]] ≠ [[1], [movingLossStep 1 0]] := by
  have h1 : trainMovingLoss [[100], [0]] = [[1], [0]] := by
    norm_num [trainMovingLoss, movingLossTraceFrom, movingLossStep]
  have h2 : movingLossStep 1 0 = 0.99 := by
    norm_num [movingLossStep]
  refine ⟨h1, h2, ?_⟩
  rw [h1, h2]
  norm_num

/-- C1 (amended): the Moving Loss is a single scalar that is reinitialized
to 0 at the start of every epoch; after every batch it is updated as
`movingLoss = 0.99*movingLoss + 0.01*batchLossSum`; consequently each
epoch's moving-loss values depend only on that epoch's batch loss sums and
no value carries over between epochs. -/
theorem movingLoss_reset_each_epoch :
    (∀ (pre post : List (List ℚ)) (sums : List ℚ),
      (trainMovingLoss (pre ++ sums :: post))[pre.length]? =
        some (movingLossTraceFrom 0 sums)) ∧
    (∀ m s : ℚ, movingLossStep m s = 0.99 * m + 0.01 * s) := by
  constructor
  · intro pre post sums
    rw [trainMovingLoss, List.getElem?_map,
      List.getElem?_append_right (le_refl _)]
    simp
  · intro m s
    rfl

/-- C2: for every pair of predicted and true label lists of matching
shape, the Loss Function returns the elementwise squared error: component
`i` of the result is `(pred i - label i)^2`. -/
theorem l2Loss_elementwise (pred label : List ℚ)
    (hlen : pred.length = label.length) :
    (l2Loss pred label).length = pred.length ∧
    ∀ (i : Nat) (h1 : i < pred.length) (h2 : i < label.length)
      (h3 : i < (l2Loss pred label).length),
      (l2Loss pred label)[i] = (pred[i] - label[i]) ^ 2 := by
  constructor
  · simp [l2Loss, hlen]
  · intro i h1 h2 h3
    simp [l2Loss, sqErr, List.getElem_zipWith]

/-- Witness for C2 at concrete one-element lists. -/
theorem l2Loss_elementwise_witness :
    ([(3 : ℚ)].length = [(1 : ℚ)].length) ∧
    ((l2Loss [3] [1]).length = [(3 : ℚ)].length ∧
      ∀ (i : Nat) (h1 : i < [(3 : ℚ)].length) (h2 : i < [(1 : ℚ)].length)
        (h3 : i < (l2Loss [3] [1]).length),
        (l2Loss [3] [1])[i] = (([(3 : ℚ)])[i] - ([(1 : ℚ)])[i]) ^ 2) := by
  exact ⟨rfl, l2Loss_elementwise [3] [1] rfl⟩

/-- C3: one Optimizer step replaces each parameter `p` by exactly
`p - lr*g/b`, and the post-update value is the unique deterministic
function of parameter, gradient, learning rate and batch size; the
trainer carries no state beyond the learning rate. -/
theorem sgdStep_formula_unique (p g lr b : ℚ) (hb : 0 < b) :
    sgdStep p g lr b = p - lr * g / b ∧
    (∀ q : ℚ, q = sgdStep p g lr b ↔ q = p - lr * g / b) ∧
    trainerStep ⟨lr⟩ [p] [g] b = [p - lr * g / b] :=
  ⟨rfl, fun _ => Iff.rfl, rfl⟩

/-- Witness for C3 at concrete inputs with the script's learning rate 0.1
and batch size 4. -/
theorem sgdStep_formula_unique_witness :
    (0 : ℚ) < 4 ∧
    (sgdStep 1 2 0.1 4 = 1 - 0.1 * 2 / 4 ∧
      (∀ q : ℚ, q = sgdStep 1 2 0.1 4 ↔ q = 1 - 0.1 * 2 / 4) ∧
      trainerStep ⟨0.1⟩ [1] [2] 4 = [1 - 0.1 * 2 / 4]) :=
  ⟨by norm_num, sgdStep_formula_unique 1 2 0.1 4 (by norm_num)⟩

/-- C4: invoking the Model on any input batch before its Parameters have
been initialized fails with the uninitialized-parameter error — the only
error the model can produce — and once initialization has run, invocation
on any batch of 2-dimensional feature vectors succeeds with the affine
predictions. -/
theorem netForward_uninitialized_error :
    (∀ batch, netForward netNew batch = .error "uninitialized-parameter") ∧
    (∀ (p : DenseParams) (batch : List (Fin 2 → ℚ)),
      netForward (netInit p) batch =
        .ok (batch.map fun x =>
          p.weight 0 * x 0 + p.weight 1 * x 1 + p.bias)) :=
  ⟨fun _ => rfl, fun _ _ => rfl⟩

/-- C6: the generated Dataset has exactly 10000 examples of feature
dimension 2, and every label satisfies
`label = 2*x₀ - 3.4*x₁ + 4.2 + noise` where the noise term is 0.01 times
that example's draw from the second unit-normal sample.  The dataset is a
pure function of the two random draws and is never modified. -/
theorem dataset_generation_formula
    (X : Fin numExamples → Fin numInputs → ℚ)
    (eps : Fin numExamples → ℚ) :
    numExamples = 10000 ∧ numInputs = 2 ∧
    ∀ i : Fin numExamples, ∃ noise : ℚ,
      genLabels X eps i = 2 * X i 0 - 3.4 * X i 1 + 4.2 + noise ∧
      noise = 0.01 * eps i :=
  ⟨rfl, rfl, fun i => ⟨0.01 * eps i, rfl, rfl⟩⟩

/-- C7: for all pairs of predicted and true labels, the squared-error loss
is nonnegative, and it is zero exactly when the prediction equals the
label. -/
theorem sqErr_nonneg_eq_zero_iff (p l : ℚ) :
    0 ≤ sqErr p l ∧ (sqErr p l = 0 ↔ p = l) := by
  constructor
  · rw [sqErr]
    exact sq_nonneg _
  · rw [sqErr, pow_eq_zero_iff (by norm_num : (2 : ℕ) ≠ 0), sub_eq_zero]

end LinRegGluon
